import Mathlib

/-!
Verification of the `naceconverter` package: a static NACE code-to-description
lookup and search engine over a small fixed reference table, plus the
packaging module `setup.py`.

The converter core (`NACEConverter.py` with its bundled `nacecodes.csv`) is
referenced by the packaging metadata but its source is not present; the
`CodeTable` operations below are therefore modelled from the specification.
The embedding of `setup.py` at the end follows that source file directly.
-/

namespace NaceConverter

/-- Modelled from the spec: one (code, description) pair of the NACE
classification table.  `NACEConverter.py` is not in the visible sources, so
this follows §3 DATA MODEL of the specification. -/
structure CodeEntry where
  code : String
  description : String
deriving DecidableEq

/-- Check whether `pat` occurs as a contiguous sublist of `l`. -/
def hasInfixList (pat : List Char) : List Char → Bool
  | [] => pat.isEmpty
  | c :: rest => pat.isPrefixOf (c :: rest) || hasInfixList pat rest

/-- Lowercase a string character by character (ASCII case folding). -/
def lowerChars (s : String) : List Char :=
  s.data.map Char.toLower

/-- Modelled from the spec: case-insensitive substring test used by `search`
(§4.1: "case-insensitive substring match against descriptions"). -/
def isSubstringCI (keyword s : String) : Bool :=
  hasInfixList (lowerChars keyword) (lowerChars s)

/-- Modelled from the spec: `lookup(code) -> description | NotFound`
(§4.1: exact match on the code string; `none` models the NotFound
condition).  `NACEConverter.py` is not in the visible sources. -/
def lookup (t : List CodeEntry) (code : String) : Option String :=
  (t.find? (fun e => e.code == code)).map CodeEntry.description

/-- Modelled from the spec: `search(keyword) -> sequence of CodeEntry`
(§4.1: case-insensitive substring match against descriptions, empty if
nothing matches).  `NACEConverter.py` is not in the visible sources. -/
def search (t : List CodeEntry) (keyword : String) : List CodeEntry :=
  t.filter (fun e => isSubstringCI keyword e.description)

/-- Two error kinds of the spec's §7; `LoadError.missingData` for missing
reference data, `LoadError.malformed` for malformed reference data. -/
inductive LoadError where
  | missingData
  | malformed
deriving DecidableEq

/-- Modelled from the spec: parse one row of the delimited reference file
into a CodeEntry; a row with the wrong column count is malformed (§4.1,
§6).  `nacecodes.csv` and its parser are not in the visible sources. -/
def parseRow : List String → Option CodeEntry
  | [c, d] => some ⟨c, d⟩
  | _ => none

/-- Modelled from the spec: every code is unique within the table
(§3 Invariant).  Boolean check that no code occurs twice. -/
def codesUnique : List CodeEntry → Bool
  | [] => true
  | e :: rest => !rest.any (fun x => x.code == e.code) && codesUnique rest

/-- Modelled from the spec: parse all rows of the reference file, failing if
any single row is malformed. -/
def parseRows : List (List String) → Option (List CodeEntry)
  | [] => some []
  | r :: rest =>
    match parseRow r, parseRows rest with
    | some e, some es => some (e :: es)
    | _, _ => none

/-- Modelled from the spec: `load() -> CodeTable` (§4.1: one-time
construction from the bundled reference data; fails with a LoadError if the
reference data is missing or malformed, e.g. duplicate codes or wrong
column count).  The reference data is `none` when the bundled file is
missing, otherwise the list of delimited rows. -/
def load (data : Option (List (List String))) : Except LoadError (List CodeEntry) :=
  match data with
  | none => .error .missingData
  | some rows =>
    match parseRows rows with
    | none => .error .malformed
    | some entries =>
      if codesUnique entries then .ok entries else .error .malformed

/-- The two-entry example table of §8 TESTABLE PROPERTIES. -/
def exampleTable : List CodeEntry :=
  [⟨"01.11", "Growing of cereals"⟩, ⟨"62.01", "Computer programming activities"⟩]

/-! ### Helper lemmas -/

theorem hasInfixList_nil (l : List Char) : hasInfixList [] l = true := by
  cases l <;> simp [hasInfixList, List.isPrefixOf]

theorem codesUnique_cons {e : CodeEntry} {rest : List CodeEntry}
    (h : codesUnique (e :: rest) = true) :
    (∀ x ∈ rest, x.code ≠ e.code) ∧ codesUnique rest = true := by
  simp only [codesUnique, Bool.and_eq_true, Bool.not_eq_true', List.any_eq_false,
    beq_iff_eq, beq_eq_false_iff_ne, ne_eq] at h
  exact h

theorem codesUnique_nodup {t : List CodeEntry} (h : codesUnique t = true) :
    (t.map CodeEntry.code).Nodup := by
  induction t with
  | nil => simp
  | cons e rest ih =>
    obtain ⟨h1, h2⟩ := codesUnique_cons h
    simp only [List.map_cons, List.nodup_cons, List.mem_map]
    refine ⟨?_, ih h2⟩
    rintro ⟨x, hx, hxe⟩
    exact h1 x hx hxe

/-! ### C1: lookup finds the paired description -/

/-- C1: for every code present in the loaded reference data, `lookup`
returns exactly the description paired with that code. -/
theorem lookup_mem (t : List CodeEntry) (e : CodeEntry)
    (hu : codesUnique t = true) (hm : e ∈ t) :
    lookup t e.code = some e.description := by
  induction t with
  | nil => cases hm
  | cons a rest ih =>
    obtain ⟨h1, h2⟩ := codesUnique_cons hu
    rcases List.mem_cons.mp hm with h | h
    · subst h
      simp only [lookup]
      rw [List.find?_cons_of_pos _ (by simp)]
      rfl
    · have hne : a.code ≠ e.code := fun hEq => (h1 e h) hEq.symm
      have ihres := ih h2 h
      simp only [lookup] at ihres ⊢
      rw [List.find?_cons_of_neg _ (by simp [hne])]
      exact ihres

theorem lookup_mem_witness :
    codesUnique exampleTable = true ∧
      CodeEntry.mk "62.01" "Computer programming activities" ∈ exampleTable ∧
      lookup exampleTable "62.01" = some "Computer programming activities" :=
  ⟨by decide, by decide,
    lookup_mem exampleTable ⟨"62.01", "Computer programming activities"⟩
      (by decide) (by decide)⟩

/-! ### C2: lookup on an absent code signals NotFound -/

/-- C2: for every code absent from the loaded reference data, `lookup`
signals the NotFound condition (returns `none`, raising no other error);
being a pure function it has no side effects on the table. -/
theorem lookup_absent (t : List CodeEntry) (c : String)
    (h : ∀ e ∈ t, e.code ≠ c) : lookup t c = none := by
  have hf : t.find? (fun e => e.code == c) = none := by
    rw [List.find?_eq_none]
    intro x hx
    simpa using h x hx
  simp [lookup, hf]

theorem lookup_absent_witness :
    (∀ e ∈ exampleTable, e.code ≠ "99.99") ∧ lookup exampleTable "99.99" = none :=
  ⟨by decide, lookup_absent exampleTable "99.99" (by decide)⟩

/-! ### C3: search results are a subset of the table and match the keyword -/

/-- C3: every entry returned by `search keyword` is an element of the loaded
table, and its description contains the keyword as a case-insensitive
substring. -/
theorem search_sound (t : List CodeEntry) (keyword : String) (e : CodeEntry)
    (h : e ∈ search t keyword) :
    e ∈ t ∧ isSubstringCI keyword e.description = true := by
  simpa [search, List.mem_filter] using h

theorem search_sound_witness :
    CodeEntry.mk "62.01" "Computer programming activities" ∈ search exampleTable "comput" ∧
      CodeEntry.mk "62.01" "Computer programming activities" ∈ exampleTable ∧
      isSubstringCI "comput" "Computer programming activities" = true :=
  ⟨by decide,
    search_sound exampleTable "comput" ⟨"62.01", "Computer programming activities"⟩ (by decide)⟩

/-! ### C4: search never errors, yields an empty finite list when nothing matches -/

/-- C4: `search` is a total pure function into finite lists (so it never
raises and has no side effects); when no entry of the table matches the
keyword it returns the empty list. -/
theorem search_no_match (t : List CodeEntry) (keyword : String)
    (h : ∀ e ∈ t, isSubstringCI keyword e.description = false) :
    search t keyword = [] := by
  simp only [search, List.filter_eq_nil_iff]
  intro e he
  simp [h e he]

theorem search_no_match_witness :
    (∀ e ∈ exampleTable, isSubstringCI "zzz" e.description = false) ∧
      search exampleTable "zzz" = [] :=
  ⟨by decide, search_no_match exampleTable "zzz" (by decide)⟩

/-! ### C5: load fails exactly on missing or malformed reference data -/

/-- C5: `load` fails with `missingData` when the bundled reference data is
missing; on present data it fails with `malformed` exactly when some row
has the wrong column count or the codes are not unique, and otherwise
returns the constructed table. -/
theorem load_spec :
    load none = .error .missingData ∧
      (∀ rows entries, parseRows rows = some entries →
        codesUnique entries = true → load (some rows) = .ok entries) ∧
      (∀ rows, parseRows rows = none → load (some rows) = .error .malformed) ∧
      (∀ rows entries, parseRows rows = some entries →
        codesUnique entries = false → load (some rows) = .error .malformed) := by
  refine ⟨rfl, ?_, ?_, ?_⟩
  · intro rows entries hp hu
    simp [load, hp, hu]
  · intro rows hp
    simp [load, hp]
  · intro rows entries hp hu
    simp [load, hp, hu]

theorem load_spec_witness :
    load (some [["62.01", "Computer programming activities"]]) =
        .ok [⟨"62.01", "Computer programming activities"⟩] ∧
      load (some [["62.01"]]) = .error .malformed ∧
      load (some [["62.01", "a"], ["62.01", "b"]]) = .error .malformed :=
  ⟨load_spec.2.1 [["62.01", "Computer programming activities"]]
      [⟨"62.01", "Computer programming activities"⟩] rfl (by decide),
    load_spec.2.2.1 [["62.01"]] rfl,
    load_spec.2.2.2 [["62.01", "a"], ["62.01", "b"]]
      [⟨"62.01", "a"⟩, ⟨"62.01", "b"⟩] rfl (by decide)⟩

/-! ### C6: uniqueness invariant of a loaded table -/

/-- C6: every table returned by `load` has pairwise distinct codes, and
since `lookup` and `search` are pure functions that take the table and
return only a result (never a modified table), the invariant is preserved
by every subsequent operation. -/
theorem load_invariant (data : Option (List (List String))) (t : List CodeEntry)
    (h : load data = .ok t) : (t.map CodeEntry.code).Nodup := by
  match data with
  | none => simp [load] at h
  | some rows =>
    match hp : parseRows rows with
    | none => simp [load, hp] at h
    | some entries =>
      simp only [load, hp] at h
      by_cases hu : codesUnique entries = true
      · rw [if_pos hu] at h
        cases h
        exact codesUnique_nodup hu
      · rw [if_neg hu] at h
        cases h

theorem load_invariant_witness :
    load (some [["01.11", "Growing of cereals"], ["62.01", "Computer programming activities"]]) =
        .ok exampleTable ∧
      (exampleTable.map CodeEntry.code).Nodup :=
  ⟨rfl,
    load_invariant (some [["01.11", "Growing of cereals"],
      ["62.01", "Computer programming activities"]]) exampleTable rfl⟩

/-! ### C7: loading is deterministic -/

/-- C7: two tables built by `load` from the same reference data answer every
lookup and every search query identically. -/
theorem load_deterministic (data : Option (List (List String)))
    (t₁ t₂ : List CodeEntry) (h₁ : load data = .ok t₁) (h₂ : load data = .ok t₂) :
    (∀ c, lookup t₁ c = lookup t₂ c) ∧ ∀ k, search t₁ k = search t₂ k := by
  have ht : t₁ = t₂ := by
    have := h₁.symm.trans h₂
    exact Except.ok.inj this
  subst ht
  exact ⟨fun _ => rfl, fun _ => rfl⟩

theorem load_deterministic_witness :
    lookup exampleTable "62.01" = lookup exampleTable "62.01" ∧
      search exampleTable "comput" = search exampleTable "comput" :=
  ⟨(load_deterministic (some [["01.11", "Growing of cereals"],
      ["62.01", "Computer programming activities"]]) exampleTable exampleTable
      rfl rfl).1 "62.01",
    (load_deterministic (some [["01.11", "Growing of cereals"],
      ["62.01", "Computer programming activities"]]) exampleTable exampleTable
      rfl rfl).2 "comput"⟩

/-! ### C8: the empty keyword returns all entries -/

/-- C8: `search` with the empty keyword has one fixed behavior on every
table: it returns all entries of the table (on every call, since `search`
is a function). -/
theorem search_empty_keyword (t : List CodeEntry) : search t "" = t := by
  have hk : lowerChars "" = [] := rfl
  apply List.filter_eq_self.mpr
  intro e _
  simp [isSubstringCI, hk, hasInfixList_nil]

/-! ### C9: the worked example of §8 -/

/-- C9: on the table with entries ("01.11","Growing of cereals") and
("62.01","Computer programming activities"): `lookup "62.01"` returns
"Computer programming activities", `lookup "99.99"` signals NotFound, and
`search "comput"` returns exactly the single 62.01 entry. -/
theorem example_queries :
    lookup exampleTable "62.01" = some "Computer programming activities" ∧
      lookup exampleTable "99.99" = none ∧
      search exampleTable "comput" = [⟨"62.01", "Computer programming activities"⟩] := by
  refine ⟨rfl, rfl, ?_⟩
  decide

end NaceConverter

namespace SetupPy

/-- The keyword arguments that `src/setup.py` passes to `setuptools.setup`
(the string-valued ones relevant to the claims). -/
structure SetupArgs where
  name : String
  version : String
  author : String
  author_email : String
  short_desc : String
  long_description : String
  long_description_content_type : String
  url : String
  python_requires : String
deriving DecidableEq

/-- Outcome of executing the packaging module: either the `open("README.md")`
call at the top raises (so control never reaches `setup(...)`), or the module
runs `setup` with the arguments it built. -/
inductive SetupOutcome where
  | fileError
  | ranSetup (args : SetupArgs)
deriving DecidableEq

/-- Shallow embedding of executing `src/setup.py`.  The argument is the
content of `README.md` decoded as UTF-8 when a readable `README.md` exists
in the working directory, and `none` otherwise.  Mirrors the module
top-to-bottom: `open("README.md", "r", encoding="utf-8")` then `fh.read()`
into `long_description`, then the `setup(...)` call with its literal
keyword arguments. -/
def runSetupModule (readmeContent : Option String) : SetupOutcome :=
  match readmeContent with
  | none => .fileError
  | some content =>
    .ranSetup
      { name := "naceconverter"
        version := "1.0.0"
        author := "Jakob Alexandersen"
        author_email := "jakob.alexandersen@fsncapital.com"
        short_desc := "A Python package for converting NACE codes to descriptions and searching"
        long_description := content
        long_description_content_type := "text/markdown"
        url := "https://github.com/yourusername/naceconverter"
        python_requires := ">=3.6" }

/-! ### C10: setup.py and README.md -/

/-- C10: executing the packaging module raises a file-open error and never
reaches the `setup()` call when no readable `README.md` exists; when it
succeeds, the `long_description` passed to `setup()` equals the full
UTF-8 contents of `README.md`. -/
theorem setup_long_description :
    runSetupModule none = .fileError ∧
      ∀ content args, runSetupModule (some content) = .ranSetup args →
        args.long_description = content := by
  refine ⟨rfl, ?_⟩
  intro content args h
  cases h
  rfl

theorem setup_long_description_witness :
    runSetupModule (some "# naceconverter") =
        .ranSetup
          { name := "naceconverter"
            version := "1.0.0"
            author := "Jakob Alexandersen"
            author_email := "jakob.alexandersen@fsncapital.com"
            short_desc := "A Python package for converting NACE codes to descriptions and searching"
            long_description := "# naceconverter"
            long_description_content_type := "text/markdown"
            url := "https://github.com/yourusername/naceconverter"
            python_requires := ">=3.6" } ∧
      SetupArgs.long_description
          { name := "naceconverter"
            version := "1.0.0"
            author := "Jakob Alexandersen"
            author_email := "jakob.alexandersen@fsncapital.com"
            short_desc := "A Python package for converting NACE codes to descriptions and searching"
            long_description := "# naceconverter"
            long_description_content_type := "text/markdown"
            url := "https://github.com/yourusername/naceconverter"
            python_requires := ">=3.6" } = "# naceconverter" :=
  ⟨rfl, setup_long_description.2 "# naceconverter" _ rfl⟩

end SetupPy
